import Mathlib

/-!
Verification of the waffle IR value/display layer.

This file shallowly embeds `src/ir/value.rs` (the `ValueDef` enum and its
query/traversal methods) and `src/ir/display.rs` (the function-body and
module pretty-printers) and proves the specified properties about them.

Conventions:
* Rust `panic!` / `unreachable!` / out-of-range indexing is modelled by
  `Option`: a result of `none` is a panic.
* Rust `FnMut` callbacks are modelled by explicit state threading.
* Entity handles (`Value`, `Block`, ...) wrap a natural-number index.
-/

/-- An entity handle for an SSA value (32-bit index in the source). -/
structure Value where
  index : Nat
deriving DecidableEq, Repr

/-- An entity handle for a basic block. -/
structure Block where
  index : Nat
deriving DecidableEq, Repr

/-- An entity handle for a pre-SSA local slot. -/
structure Local where
  index : Nat
deriving DecidableEq, Repr

/-- An entity handle for a function slot in the module. -/
structure Func where
  index : Nat
deriving DecidableEq, Repr

/-- An entity handle for a function signature. -/
structure Signature where
  index : Nat
deriving DecidableEq, Repr

/-- An entity handle for a debug source file. -/
structure SourceFile where
  index : Nat
deriving DecidableEq, Repr

/-- An entity handle for a debug source location. -/
structure SourceLoc where
  index : Nat
deriving DecidableEq, Repr

/-- Modelled from the spec: each handle has a distinguished `invalid` value
(the 32-bit all-ones sentinel; the entity types themselves are declared
outside the given sources). -/
def SourceLoc.invalid : SourceLoc := ⟨4294967295⟩

/-- Wasm value types. Modelled from the spec: the concrete `Type` enum is
declared outside the given sources; only its display text matters here. -/
inductive Ty where
  | i32
  | i64
  | f32
  | f64
deriving DecidableEq, Repr

/-- An operator (opcode). Modelled from the spec: only the display text of
an operator is relevant to the claims, so it is kept abstract. -/
structure Operator where
  text : String
deriving DecidableEq, Repr

/-- `ValueDef` as declared in `src/ir/value.rs`: the `Operator` and `Trace`
variants own their argument and result-type vectors directly. -/
inductive ValueDef where
  | BlockParam : Block → Nat → Ty → ValueDef
  | Operator : Operator → List Value → List Ty → ValueDef
  | PickOutput : Value → Nat → Ty → ValueDef
  | Alias : Value → ValueDef
  | Placeholder : Ty → ValueDef
  | Trace : Nat → List Value → ValueDef
  | None : ValueDef
deriving DecidableEq, Repr

/-- `ValueDef::ty` from `src/ir/value.rs`: the two `Operator` guard arms
(`tys.len() == 0`, `tys.len() == 1`) become a match on the list shape, and
the final catch-all arm returns `none`. -/
def ValueDef.ty : ValueDef → Option Ty
  | .BlockParam _ _ t => some t
  | .Operator _ _ tys =>
    match tys with
    | [] => none
    | [t] => some t
    | _ => none
  | .PickOutput _ _ t => some t
  | .Placeholder t => some t
  | .Trace _ _ => none
  | .Alias _ => none
  | .None => none

/-- `ValueDef::tys` from `src/ir/value.rs` (slices become lists). -/
def ValueDef.tys : ValueDef → List Ty
  | .Operator _ _ ts => ts
  | .BlockParam _ _ t => [t]
  | .PickOutput _ _ t => [t]
  | .Placeholder t => [t]
  | .Alias _ => []
  | .Trace _ _ => []
  | .None => []

/-- `ValueDef::visit_uses` from `src/ir/value.rs`. The `FnMut(Value)`
callback is modelled by state threading: `f` folds each visited operand
into the state, in the order the Rust loop visits them. The `None` variant
panics (`none`). -/
def ValueDef.visit_uses {σ : Type} (f : Value → σ → σ) (init : σ) :
    ValueDef → Option σ
  | .BlockParam _ _ _ => some init
  | .Operator _ args _ => some (args.foldl (fun s a => f a s) init)
  | .PickOutput v _ _ => some (f v init)
  | .Alias v => some (f v init)
  | .Placeholder _ => some init
  | .Trace _ args => some (args.foldl (fun s a => f a s) init)
  | .None => none

/-- `ValueDef::update_uses` from `src/ir/value.rs`. The `FnMut(&mut Value)`
callback is modelled as `f : Value → σ → Value × σ`: it reads the operand,
returns its replacement and the updated state. Operands are rewritten in
place, left to right; the `None` variant panics (`none`). -/
def ValueDef.update_uses {σ : Type} (f : Value → σ → Value × σ) (init : σ) :
    ValueDef → Option (ValueDef × σ)
  | .BlockParam b i t => some (.BlockParam b i t, init)
  | .Operator op args tys =>
    let r := args.foldl
      (fun (acc : List Value × σ) a =>
        let p := f a acc.2
        (acc.1 ++ [p.1], p.2))
      (([] : List Value), init)
    some (.Operator op r.1 tys, r.2)
  | .PickOutput v i t =>
    let p := f v init
    some (.PickOutput p.1 i t, p.2)
  | .Alias v =>
    let p := f v init
    some (.Alias p.1, p.2)
  | .Placeholder t => some (.Placeholder t, init)
  | .Trace n args =>
    let r := args.foldl
      (fun (acc : List Value × σ) a =>
        let p := f a acc.2
        (acc.1 ++ [p.1], p.2))
      (([] : List Value), init)
    some (.Trace n r.1, r.2)
  | .None => none

/-- The sequence of operands `visit_uses` invokes its callback on:
instantiate the callback with a list collector. -/
def ValueDef.visitedOperands (d : ValueDef) : Option (List Value) :=
  d.visit_uses (fun v l => l ++ [v]) []

/-- The sequence of operands `update_uses` examines, together with the
rewritten definition: the callback rewrites with `g` while collecting the
old operands. -/
def ValueDef.updatedOperands (g : Value → Value) (d : ValueDef) :
    Option (ValueDef × List Value) :=
  d.update_uses (fun v l => (g v, l ++ [v])) []

namespace Disp

/-- An append-only entity pool (spec §4.1): dense indices, insertion-order
iteration, panic on out-of-range lookup (modelled as `none`). -/
structure Pool (α : Type) where
  items : List α
deriving DecidableEq, Repr

/-- Indexed entries of a pool, starting at index `n`. -/
def enumFromN {α : Type} : Nat → List α → List (Nat × α)
  | _, [] => []
  | n, x :: xs => (n, x) :: enumFromN (n + 1) xs

def Pool.get {α : Type} (p : Pool α) (i : Nat) : Option α :=
  p.items[i]?

/-- `entries()`: iteration over (index, data) in insertion order. -/
def Pool.entries {α : Type} (p : Pool α) : List (Nat × α) :=
  enumFromN 0 p.items

/-- Display text of entity handles. Modelled from the spec: every entity is
printed as its kind prefix followed by its index. -/
def Value.str (v : Value) : String := "v" ++ Nat.repr v.index

def Block.str (b : Block) : String := "block" ++ Nat.repr b.index

def Local.str (l : Local) : String := "local" ++ Nat.repr l.index

def Func.str (fc : Func) : String := "func" ++ Nat.repr fc.index

def Signature.str (s : Signature) : String := "sig" ++ Nat.repr s.index

def SourceLoc.str (s : SourceLoc) : String := "loc" ++ Nat.repr s.index

def SourceFile.str (s : SourceFile) : String := "file" ++ Nat.repr s.index

/-- Display text of a Wasm type. Modelled from the spec (types print as
their Wasm names). -/
def Ty.str : Ty → String
  | .i32 => "i32"
  | .i64 => "i64"
  | .f32 => "f32"
  | .f64 => "f64"

/-- `ValueDef` as used in `src/ir/display.rs`: `Operator` and `Trace` hold
interned `arg_pool`/`type_pool` handles (natural-number indices) rather
than owned vectors. -/
inductive ValueDef where
  | BlockParam : Block → Nat → Ty → ValueDef
  | Operator : Operator → Nat → Nat → ValueDef
  | PickOutput : Value → Nat → Ty → ValueDef
  | Alias : Value → ValueDef
  | Placeholder : Ty → ValueDef
  | Trace : Nat → Nat → ValueDef
  | None : ValueDef
deriving DecidableEq, Repr

/-- A basic block as consumed by the printer (spec §3.5): parameter list,
instruction list, terminator (modelled by its display text — the
terminator type is declared outside the given sources), cached
predecessor/successor lists, and a description string. -/
structure BlockData where
  params : List (Ty × Value)
  insts : List Value
  terminator : String
  preds : List Block
  succs : List Block
  desc : String
deriving DecidableEq, Repr

/-- A function body as consumed by the printer (spec §3.6). `value_locals`
and `source_locs` are per-value side tables; `arg_pool`/`type_pool` are the
interning pools for argument and type lists. -/
structure FunctionBody where
  n_params : Nat
  locals : Pool Ty
  rets : List Ty
  values : Pool ValueDef
  blocks : Pool BlockData
  arg_pool : Pool (List Value)
  type_pool : Pool (List Ty)
  value_locals : List (Option Local)
  source_locs : List SourceLoc
deriving DecidableEq, Repr

/-- A debug source-location record (file, line, column). Modelled from the
spec (§3.3): declared outside the given sources. -/
structure SourceLocData where
  file : SourceFile
  line : Nat
  col : Nat
deriving DecidableEq, Repr

/-- The module debug tables. Modelled from the spec: declared outside the
given sources. -/
structure Debug where
  source_locs : Pool SourceLocData
  source_files : Pool String
deriving DecidableEq, Repr

/-- A function signature's data. Modelled from the spec (§3.3). -/
structure SignatureData where
  params : List Ty
  returns : List Ty
deriving DecidableEq, Repr

/-- A global's data. Modelled from the spec: the printer shows the
initial value with `Debug` formatting, modelled as opaque text. -/
structure GlobalData where
  value : String
  ty : Ty
deriving DecidableEq, Repr

/-- A table's data. Modelled from the spec. -/
structure TableData where
  ty : Ty
  func_elements : Option (List Func)
deriving DecidableEq, Repr

/-- A memory data segment; only its offset and byte length are printed. -/
structure MemorySegment where
  offset : Nat
  dataLen : Nat
deriving DecidableEq, Repr

/-- A memory's data. `maximum_pages` is shown with `Debug` formatting,
modelled as opaque text. -/
structure MemoryData where
  initial_pages : Nat
  maximum_pages : String
  segments : List MemorySegment
deriving DecidableEq, Repr

/-- An import record; the kind is shown via `Display`, modelled as text. -/
structure ImportData where
  module : String
  name : String
  kind : String
deriving DecidableEq, Repr

/-- An export record; the kind is shown via `Display`, modelled as text. -/
structure ExportData where
  name : String
  kind : String
deriving DecidableEq, Repr

/-- `FuncDecl` (spec §3.7) as consumed by the printer: for `Lazy` only the
byte-range length is printed, and the `Compiled` payload is opaque. -/
inductive FuncDecl where
  | Body : Signature → String → FunctionBody → FuncDecl
  | Lazy : Signature → String → Nat → FuncDecl
  | Compiled : Signature → String → FuncDecl
  | Import : Signature → String → FuncDecl
  | None : FuncDecl
deriving DecidableEq, Repr

/-- The module container (spec §3.7/§4.4) as consumed by the printer. -/
structure Module where
  start_func : Option Func
  signatures : Pool SignatureData
  globals : Pool GlobalData
  tables : Pool TableData
  memories : Pool MemoryData
  imports : List ImportData
  exports : List ExportData
  funcs : Pool FuncDecl
  debug : Debug
deriving DecidableEq, Repr

/-- The `PrintDecorator` trait: each hook produces the text it writes at
its anchor (a no-op hook writes the empty string). -/
structure PrintDecorator where
  after_inst : Value → String
  before_block : Block → String
  after_block : Block → String
  before_function_body : String
  after_function_body : String

/-- `NOPPrintDecorator`: every hook writes nothing. -/
def NOPPrintDecorator : PrintDecorator :=
  ⟨fun _ => "", fun _ => "", fun _ => "", "", ""⟩

/-- Map a fallible function over a list, stopping at the first panic
(`Option.mapM` written out for proof convenience). -/
def mapOpt {α β : Type} (f : α → Option β) : List α → Option (List β)
  | [] => some []
  | x :: xs =>
    match f x with
    | none => none
    | some y =>
      match mapOpt f xs with
      | none => none
      | some ys => some (y :: ys)

/-- The source-location suffix of an operator instruction line
(`src/ir/display.rs` lines 195–205): `source_locs[inst]` is indexed
(panicking if out of range); if it is not the invalid sentinel and a
module reference is present, the debug tables are consulted and the text
is `@<loc> <file>:<line>:<col>`, otherwise the empty string. -/
def locText (body : FunctionBody) (m? : Option Module) (inst : Value) :
    Option String :=
  match body.source_locs[inst.index]? with
  | none => none
  | some sl =>
    match m? with
    | none => some ""
    | some m =>
      if sl = SourceLoc.invalid then some ""
      else
        match m.debug.source_locs.get sl.index with
        | none => none
        | some data =>
          match m.debug.source_files.get data.file.index with
          | none => none
          | some fname =>
            some ("@" ++ SourceLoc.str sl ++ " " ++ fname ++ ":"
              ++ Nat.repr data.line ++ ":" ++ Nat.repr data.col)

/-- The `ValueDef::Operator` arm of the per-instruction printing loop
(`src/ir/display.rs` lines 186–215), up to but excluding the decorator
call and trailing newline: resolve the interned argument and type lists,
compute the location suffix, and build
`<indent>    <value> = <op> <args> # <tys> <loc> `. -/
def instOperatorLine (body : FunctionBody) (m? : Option Module)
    (ind : String) (inst : Value) (op : Operator) (aH tH : Nat) :
    Option String :=
  match body.arg_pool.get aH with
  | none => none
  | some args =>
    match body.type_pool.get tH with
    | none => none
    | some tys =>
      match locText body m? inst with
      | none => none
      | some loc =>
        some (ind ++ "    " ++ Value.str inst ++ " = " ++ op.text ++ " "
          ++ String.intercalate ", " (args.map Value.str) ++ " # "
          ++ String.intercalate ", " (tys.map Ty.str) ++ " " ++ loc ++ " ")

/-- The text a decorator hook contributes, `""` when no decorator. -/
def afterInstText (deco? : Option PrintDecorator) (inst : Value) : String :=
  match deco? with
  | some d => d.after_inst inst
  | none => ""

/-- One iteration of the per-instruction loop (`src/ir/display.rs` lines
181–228): the optional `# <value>: <local>` comment, then dispatch on the
value's definition; `BlockParam`, `Placeholder`, `Trace` and `None`
definitions hit the `unreachable!` arm (modelled as `none`). -/
def printInst (body : FunctionBody) (m? : Option Module)
    (deco? : Option PrintDecorator) (ind : String) (inst : Value) :
    Option String :=
  match body.value_locals[inst.index]? with
  | none => none
  | some lc =>
    let lcLine :=
      match lc with
      | some l => ind ++ "    # " ++ Value.str inst ++ ": " ++ Local.str l ++ "\n"
      | none => ""
    match body.values.get inst.index with
    | none => none
    | some vd =>
      match vd with
      | .Operator op aH tH =>
        match instOperatorLine body m? ind inst op aH tH with
        | none => none
        | some line =>
          some (lcLine ++ line ++ afterInstText deco? inst ++ "\n")
      | .PickOutput v i t =>
        some (lcLine ++ ind ++ "    " ++ Value.str inst ++ " = "
          ++ Value.str v ++ "." ++ Nat.repr i ++ " # " ++ Ty.str t ++ "\n")
      | .Alias v =>
        some (lcLine ++ ind ++ "    " ++ Value.str inst ++ " = "
          ++ Value.str v ++ "\n")
      | _ => none

/-- The whole per-instruction loop over a block's instruction list. -/
def printInsts (body : FunctionBody) (m? : Option Module)
    (deco? : Option PrintDecorator) (ind : String) :
    List Value → Option String
  | [] => some ""
  | v :: rest =>
    match printInst body m? deco? ind v with
    | none => none
    | some s =>
      match printInsts body m? deco? ind rest with
      | none => none
      | some r => some (s ++ r)

/-- One iteration of the verbose pre-pass over the `values` pool
(`src/ir/display.rs` lines 93–133), returning the lines it emits for one
value (zero or one). The `Operator` and `BlockParam` arms are guarded by
`verbose`; the `Alias` arm checks `verbose` internally; `PickOutput`,
`Placeholder` and `None` print unconditionally; `Trace` (and the
non-verbose `Operator`/`BlockParam` fallthroughs) print nothing. -/
def preLine (verbose : Bool) (body : FunctionBody) (ind : String)
    (idx : Nat) (vd : ValueDef) : Option (List String) :=
  match vd with
  | .Operator op aH tH =>
    if verbose then
      match body.arg_pool.get aH with
      | none => none
      | some args =>
        match body.type_pool.get tH with
        | none => none
        | some tys =>
          some [ind ++ "    " ++ Value.str ⟨idx⟩ ++ " = " ++ op.text ++ " "
            ++ String.intercalate ", " (args.map Value.str) ++ " # "
            ++ String.intercalate ", " (tys.map Ty.str) ++ " \n"]
    else some []
  | .BlockParam b i t =>
    if verbose then
      some [ind ++ "    " ++ Value.str ⟨idx⟩ ++ " = blockparam "
        ++ Block.str b ++ ", " ++ Nat.repr i ++ " # " ++ Ty.str t ++ "\n"]
    else some []
  | .Alias tgt =>
    if verbose then
      some [ind ++ "    " ++ Value.str ⟨idx⟩ ++ " = " ++ Value.str tgt ++ "\n"]
    else some []
  | .PickOutput v i t =>
    some [ind ++ "    " ++ Value.str ⟨idx⟩ ++ " = " ++ Value.str v ++ "."
      ++ Nat.repr i ++ " # " ++ Ty.str t ++ "\n"]
  | .Placeholder t =>
    some [ind ++ "    " ++ Value.str ⟨idx⟩ ++ " = placeholder # "
      ++ Ty.str t ++ "\n"]
  | .None =>
    some [ind ++ "    " ++ Value.str ⟨idx⟩ ++ " = none\n"]
  | .Trace _ _ => some []

/-- The pre-pass over the whole `values` pool: the lines emitted before
any block is printed. -/
def prePassLines (verbose : Bool) (body : FunctionBody) (ind : String) :
    Option (List String) :=
  (mapOpt (fun e => preLine verbose body ind e.1 e.2) body.values.entries).map
    List.flatten

/-- One iteration of the block loop (`src/ir/display.rs` lines 135–234):
block header, `before_block` hook, predecessor and successor comment lines
(each resolving the referenced blocks' descriptions), per-parameter local
comments, the instruction loop, the `after_block` hook, and the
terminator line. -/
def printBlock (body : FunctionBody) (m? : Option Module)
    (deco? : Option PrintDecorator) (ind : String) (bid : Block)
    (bd : BlockData) : Option String :=
  let header := ind ++ "  " ++ Block.str bid ++ "("
    ++ String.intercalate ", "
      (bd.params.map (fun p => Value.str p.2 ++ ": " ++ Ty.str p.1))
    ++ "): # " ++ bd.desc ++ "\n"
  let beforeB :=
    match deco? with
    | some d => d.before_block bid
    | none => ""
  (mapOpt
      (fun p => (body.blocks.get p.index).map
        (fun pbd => Block.str p ++ " (" ++ pbd.desc ++ ")"))
      bd.preds).bind (fun ps =>
  (mapOpt
      (fun s => (body.blocks.get s.index).map
        (fun sbd => Block.str s ++ " (" ++ sbd.desc ++ ")"))
      bd.succs).bind (fun ss =>
  (mapOpt
      (fun p => (body.value_locals[(p.2).index]?).map
        (fun lc =>
          match lc with
          | some l => ind ++ "    # " ++ Value.str p.2 ++ ": "
              ++ Local.str l ++ "\n"
          | none => ""))
      bd.params).bind (fun plines =>
  (printInsts body m? deco? ind bd.insts).bind (fun instsText =>
    let afterB :=
      match deco? with
      | some d => d.after_block bid
      | none => ""
    some (header ++ beforeB
      ++ ind ++ "    # preds: " ++ String.intercalate ", " ps ++ "\n"
      ++ ind ++ "    # succs: " ++ String.intercalate ", " ss ++ "\n"
      ++ String.join plines
      ++ instsText
      ++ afterB
      ++ ind ++ "    " ++ bd.terminator ++ "\n")))))

/-- `FunctionBodyDisplay::fmt` (`src/ir/display.rs` lines 66–243): the
signature header, the `before_function_body` hook, the pre-pass over the
values pool, the block loop in insertion order, the `after_function_body`
hook, and the closing brace line. -/
def functionBodyFmt (body : FunctionBody) (ind : String) (verbose : Bool)
    (m? : Option Module) (deco? : Option PrintDecorator) : Option String :=
  let header := ind ++ "function("
    ++ String.intercalate ", "
      ((body.locals.items.take body.n_params).map Ty.str)
    ++ ") -> "
    ++ String.intercalate ", " (body.rets.map Ty.str)
    ++ " \x7b\n"
  let bfb :=
    match deco? with
    | some d => d.before_function_body
    | none => ""
  (prePassLines verbose body ind).bind (fun pre =>
  (mapOpt (fun e => printBlock body m? deco? ind ⟨e.1⟩ e.2)
      body.blocks.entries).bind (fun bs =>
    let afb :=
      match deco? with
      | some d => d.after_function_body
      | none => ""
    some (header ++ bfb ++ String.join pre ++ String.join bs ++ afb
      ++ ind ++ "\x7d\n")))

/-- The signature-string table that `ModuleDisplay::fmt` builds while
printing the signature section: `sig index ↦ "<params> -> <returns>"`. -/
def sigStrs (m : Module) : List (Nat × String) :=
  m.signatures.entries.map
    (fun e => (e.1,
      String.intercalate ", " (e.2.params.map Ty.str) ++ " -> "
        ++ String.intercalate ", " (e.2.returns.map Ty.str)))

/-- One iteration of the function loop of `ModuleDisplay::fmt`
(`src/ir/display.rs` lines 313–362). The signature string is fetched with
`unwrap()` (panic on a dangling signature handle). A `Body` function is
printed with `body.display("    ", Some(module))`; `FunctionBody::display`
is declared outside the given sources and is modelled from the spec:
non-verbose, no decorator (the verbose/decorated form is the separate
`display_verbose`). -/
def printFuncDecl (m : Module) (idx : Nat) : FuncDecl → Option String
  | .Body sig name body =>
    match (sigStrs m).lookup sig.index with
    | none => none
    | some ss =>
      match functionBodyFmt body "    " false (some m) none with
      | none => none
      | some b =>
        some ("  " ++ Func.str ⟨idx⟩ ++ " \"" ++ name ++ "\": "
          ++ Signature.str sig ++ " = # " ++ ss ++ "\n" ++ b ++ "\n")
  | .Lazy sig name len =>
    match (sigStrs m).lookup sig.index with
    | none => none
    | some ss =>
      some ("  " ++ Func.str ⟨idx⟩ ++ " \"" ++ name ++ "\": "
        ++ Signature.str sig ++ " = # " ++ ss ++ "\n"
        ++ "  # raw bytes (length " ++ Nat.repr len ++ ")\n")
  | .Compiled sig name =>
    match (sigStrs m).lookup sig.index with
    | none => none
    | some ss =>
      some ("  " ++ Func.str ⟨idx⟩ ++ " \"" ++ name ++ "\": "
        ++ Signature.str sig ++ " = # " ++ ss ++ "\n"
        ++ "  # already compiled\n")
  | .Import sig name =>
    match (sigStrs m).lookup sig.index with
    | none => none
    | some ss =>
      some ("  " ++ Func.str ⟨idx⟩ ++ " \"" ++ name ++ "\": "
        ++ Signature.str sig ++ " # " ++ ss ++ "\n")
  | .None => some ("  " ++ Func.str ⟨idx⟩ ++ ": none\n")

/-- `ModuleDisplay::fmt` (`src/ir/display.rs` lines 250–376). The
`decorators` field of `ModuleDisplay` (line 247) — modelled as an
unordered association list, since it is a `HashMap` in the source — is a
parameter here exactly as in the source, where it is never read by `fmt`.
All pools are iterated in insertion order. -/
def moduleFmt (m : Module)
    (decorators : Option (List (Func × PrintDecorator))) : Option String :=
  let startText :=
    match m.start_func with
    | some fc => "    start = " ++ Func.str fc ++ "\n"
    | none => ""
  let sigsText := String.join
    ((sigStrs m).map (fun e =>
      "  " ++ Signature.str ⟨e.1⟩ ++ ": " ++ e.2 ++ "\n"))
  let globalsText := String.join
    (m.globals.entries.map (fun e =>
      "  global" ++ Nat.repr e.1 ++ ": " ++ e.2.value ++ " # "
        ++ Ty.str e.2.ty ++ "\n"))
  let tablesText := String.join
    (m.tables.entries.map (fun e =>
      "  table" ++ Nat.repr e.1 ++ ": " ++ Ty.str e.2.ty ++ "\n"
        ++ (match e.2.func_elements with
            | some fs => String.join
                ((enumFromN 0 fs).map (fun p =>
                  "    table" ++ Nat.repr e.1 ++ "[" ++ Nat.repr p.1 ++ "]: "
                    ++ Func.str p.2 ++ "\n"))
            | none => "")))
  let memoriesText := String.join
    (m.memories.entries.map (fun e =>
      "  memory" ++ Nat.repr e.1 ++ ": initial " ++ Nat.repr e.2.initial_pages
        ++ " max " ++ e.2.maximum_pages ++ "\n"
        ++ String.join (e.2.segments.map (fun seg =>
            "    memory" ++ Nat.repr e.1 ++ " offset " ++ Nat.repr seg.offset
              ++ ": # " ++ Nat.repr seg.dataLen ++ " bytes\n"))))
  let importsText := String.join
    (m.imports.map (fun im =>
      "  import \"" ++ im.module ++ "\".\"" ++ im.name ++ "\": "
        ++ im.kind ++ "\n"))
  let exportsText := String.join
    (m.exports.map (fun ex =>
      "  export \"" ++ ex.name ++ "\": " ++ ex.kind ++ "\n"))
  match mapOpt (fun e => printFuncDecl m e.1 e.2) m.funcs.entries with
  | none => none
  | some funcTexts =>
    let debugLocsText := String.join
      (m.debug.source_locs.entries.map (fun e =>
        "  loc" ++ Nat.repr e.1 ++ " = " ++ SourceFile.str e.2.file
          ++ " line " ++ Nat.repr e.2.line ++ " column " ++ Nat.repr e.2.col
          ++ "\n"))
    let debugFilesText := String.join
      (m.debug.source_files.entries.map (fun e =>
        "  file" ++ Nat.repr e.1 ++ " = \"" ++ e.2 ++ "\"\n"))
    some ("module \x7b\n" ++ startText ++ sigsText ++ globalsText
      ++ tablesText ++ memoriesText ++ importsText ++ exportsText
      ++ String.join funcTexts ++ debugLocsText ++ debugFilesText
      ++ "\x7d\n")


/-- Modelled from the amended claim: whether the pre-pass emits a line for
a value definition — always for `PickOutput`/`Placeholder`/`None`, only in
verbose mode for `Operator`/`BlockParam`/`Alias`, never for `Trace`. -/
def specEmits (verbose : Bool) : ValueDef → Bool
  | .PickOutput _ _ _ => true
  | .Placeholder _ => true
  | .None => true
  | .Operator _ _ _ => verbose
  | .BlockParam _ _ _ => verbose
  | .Alias _ => verbose
  | .Trace _ _ => false

/-- Modelled from the amended claim: the text of the pre-pass line for one
value definition (when one is emitted). `Operator`, `BlockParam`,
`PickOutput` and `Placeholder` lines carry a `#`-commented type; `Alias`
and `None` lines do not. -/
def specLineText (body : FunctionBody) (ind : String) (idx : Nat) :
    ValueDef → Option String
  | .Operator op aH tH =>
    match body.arg_pool.get aH with
    | none => none
    | some args =>
      match body.type_pool.get tH with
      | none => none
      | some tys =>
        some (ind ++ "    " ++ Value.str ⟨idx⟩ ++ " = " ++ op.text ++ " "
          ++ String.intercalate ", " (args.map Value.str) ++ " # "
          ++ String.intercalate ", " (tys.map Ty.str) ++ " \n")
  | .BlockParam b i t =>
    some (ind ++ "    " ++ Value.str ⟨idx⟩ ++ " = blockparam "
      ++ Block.str b ++ ", " ++ Nat.repr i ++ " # " ++ Ty.str t ++ "\n")
  | .Alias tgt =>
    some (ind ++ "    " ++ Value.str ⟨idx⟩ ++ " = " ++ Value.str tgt ++ "\n")
  | .PickOutput v i t =>
    some (ind ++ "    " ++ Value.str ⟨idx⟩ ++ " = " ++ Value.str v ++ "."
      ++ Nat.repr i ++ " # " ++ Ty.str t ++ "\n")
  | .Placeholder t =>
    some (ind ++ "    " ++ Value.str ⟨idx⟩ ++ " = placeholder # "
      ++ Ty.str t ++ "\n")
  | .None =>
    some (ind ++ "    " ++ Value.str ⟨idx⟩ ++ " = none\n")
  | .Trace _ _ => some ""

/-- Modelled from the amended claim: the pre-pass output described
variant-by-variant — one line per value whose definition `specEmits`,
with `specLineText` as the line. -/
def prePassSpec (verbose : Bool) (body : FunctionBody) (ind : String) :
    Option (List String) :=
  (mapOpt
    (fun e =>
      if specEmits verbose e.2 then
        (specLineText body ind e.1 e.2).map (fun l => [l])
      else some ([] : List String))
    body.values.entries).map List.flatten

/-- The definitions whose appearance in a block instruction list drives
the printer into the `unreachable!` arm. -/
def isBadInstDef : ValueDef → Bool
  | .BlockParam _ _ _ => true
  | .Placeholder _ => true
  | .Trace _ _ => true
  | .None => true
  | _ => false

/-- The lookups the per-instruction printer performs for a definition of
each printable variant all succeed (`false` for the unprintable ones). -/
def defOk (body : FunctionBody) (m? : Option Module) (v : Value) :
    ValueDef → Bool
  | .Operator _ aH tH =>
    (body.arg_pool.get aH).isSome && (body.type_pool.get tH).isSome
      && (locText body m? v).isSome
  | .PickOutput _ _ _ => true
  | .Alias _ => true
  | _ => false

/-- `defOk` lifted over the `values`-pool lookup. -/
def defOkOpt (body : FunctionBody) (m? : Option Module) (v : Value) :
    Option ValueDef → Bool
  | some vd => defOk body m? v vd
  | none => false

/-- All lookups the per-instruction printer performs for `v` succeed and
the definition is one of the printable variants. -/
def instOk (body : FunctionBody) (m? : Option Module) (v : Value) : Bool :=
  (body.value_locals[v.index]?).isSome
    && defOkOpt body m? v (body.values.get v.index)

/-- A sample operator used by the concrete witnesses below. -/
def opAdd : Operator := ⟨"i32.add"⟩

/-- A small well-formed function body: one block whose instructions are an
operator (with a valid source location), a pick-output and an alias. -/
def sampleBody : FunctionBody where
  n_params := 1
  locals := ⟨[Ty.i32]⟩
  rets := [Ty.i32]
  values := ⟨[.Operator opAdd 0 0, .PickOutput ⟨0⟩ 0 Ty.i32, .Alias ⟨0⟩]⟩
  blocks := ⟨[⟨[], [⟨0⟩, ⟨1⟩, ⟨2⟩], "return v0", [], [], "entry"⟩]⟩
  arg_pool := ⟨[[]]⟩
  type_pool := ⟨[[Ty.i32]]⟩
  value_locals := [none, none, none]
  source_locs := [⟨0⟩, SourceLoc.invalid, SourceLoc.invalid]

/-- A small module holding `sampleBody` and one debug source location. -/
def sampleModule : Module where
  start_func := none
  signatures := ⟨[⟨[Ty.i32], [Ty.i32]⟩]⟩
  globals := ⟨[]⟩
  tables := ⟨[]⟩
  memories := ⟨[]⟩
  imports := []
  exports := []
  funcs := ⟨[.Body ⟨0⟩ "f" sampleBody]⟩
  debug := ⟨⟨[⟨⟨0⟩, 1, 2⟩]⟩, ⟨["a.wat"]⟩⟩

/-- A body whose single block lists a value defined as `None`: printing it
hits the `unreachable!` arm. -/
def badBody : FunctionBody where
  n_params := 0
  locals := ⟨[]⟩
  rets := []
  values := ⟨[.None]⟩
  blocks := ⟨[⟨[], [⟨0⟩], "ret", [], [], "bad"⟩]⟩
  arg_pool := ⟨[]⟩
  type_pool := ⟨[]⟩
  value_locals := [none]
  source_locs := [SourceLoc.invalid]

/-- A body whose values pool holds a `Placeholder`, a `Trace` and a `None`
definition: a counterexample input for the pre-pass claim. -/
def cex5Body : FunctionBody where
  n_params := 0
  locals := ⟨[]⟩
  rets := []
  values := ⟨[.Placeholder Ty.i32, .Trace 0 0, .None]⟩
  blocks := ⟨[]⟩
  arg_pool := ⟨[]⟩
  type_pool := ⟨[]⟩
  value_locals := [none, none, none]
  source_locs := [SourceLoc.invalid, SourceLoc.invalid, SourceLoc.invalid]

/-- A decorator whose every hook writes a visible marker. -/
def loudDecorator : PrintDecorator where
  after_inst := fun _ => " AFTERINST"
  before_block := fun _ => "BEFOREBLOCK\n"
  after_block := fun _ => "AFTERBLOCK\n"
  before_function_body := "BEFOREFN\n"
  after_function_body := "AFTERFN\n"

end Disp

section FoldHelpers

theorem foldl_snoc (args : List Value) (l : List Value) :
    args.foldl (fun s a => s ++ [a]) l = l ++ args := by
  induction args generalizing l with
  | nil => simp
  | cons a rest ih => simp [List.foldl, ih]

theorem foldl_track_snd (g : Value → Value) (args : List Value)
    (accL accS : List Value) :
    (args.foldl
      (fun (acc : List Value × List Value) a =>
        let p := ((g a, acc.2 ++ [a]) : Value × List Value)
        (acc.1 ++ [p.1], p.2))
      (accL, accS)).2 = accS ++ args := by
  induction args generalizing accL accS with
  | nil => simp
  | cons a rest ih => simpa using ih (accL ++ [g a]) (accS ++ [a])

end FoldHelpers

/-- C1: `ValueDef::ty` returns the declared type for `BlockParam`,
`PickOutput`, `Placeholder`; the unique result type for a single-result
`Operator` (and `none` for zero- or multi-result operators); and `none`
for `Trace`, `Alias`, and the `None` variant. -/
theorem valueDef_ty_characterization
    (b : Block) (i j n : Nat) (t : Ty) (op : Operator)
    (args tr : List Value) (tys : List Ty) (w : Value) :
    (ValueDef.ty (.BlockParam b i t) = some t) ∧
    (ValueDef.ty (.Operator op args tys)
      = if tys.length = 1 then tys.head? else none) ∧
    (ValueDef.ty (.PickOutput w j t) = some t) ∧
    (ValueDef.ty (.Placeholder t) = some t) ∧
    (ValueDef.ty (.Trace n tr) = none) ∧
    (ValueDef.ty (.Alias w) = none) ∧
    (ValueDef.ty .None = none) := by
  refine ⟨rfl, ?_, rfl, rfl, rfl, rfl, rfl⟩
  match tys with
  | [] => simp [ValueDef.ty]
  | [t0] => simp [ValueDef.ty]
  | t0 :: t1 :: rest => simp [ValueDef.ty]

/-- C4: `ValueDef::tys` returns the full result-type list for `Operator`
(any arity), a one-element list for `BlockParam`, `PickOutput`,
`Placeholder`, and the empty list for `Alias`, `Trace`, `None`. -/
theorem valueDef_tys_characterization
    (b : Block) (i j n : Nat) (t : Ty) (op : Operator)
    (args tr : List Value) (tys : List Ty) (w : Value) :
    (ValueDef.tys (.Operator op args tys) = tys) ∧
    (ValueDef.tys (.BlockParam b i t) = [t]) ∧
    (ValueDef.tys (.PickOutput w j t) = [t]) ∧
    (ValueDef.tys (.Placeholder t) = [t]) ∧
    (ValueDef.tys (.Alias w) = []) ∧
    (ValueDef.tys (.Trace n tr) = []) ∧
    (ValueDef.tys .None = []) :=
  ⟨rfl, rfl, rfl, rfl, rfl, rfl, rfl⟩

/-- C2: `visit_uses` invokes its callback exactly once per operand in
left-to-right order — collecting the callback's arguments yields the
argument list for `Operator`/`Trace`, the single source for
`PickOutput`/`Alias`, nothing for `BlockParam`/`Placeholder`, and the
`None` variant panics instead of invoking the callback. -/
theorem visit_uses_operand_sequence
    (b : Block) (i j n : Nat) (t : Ty) (op : Operator)
    (args tr : List Value) (tys : List Ty) (w : Value) :
    (ValueDef.visitedOperands (.BlockParam b i t) = some []) ∧
    (ValueDef.visitedOperands (.Operator op args tys) = some args) ∧
    (ValueDef.visitedOperands (.PickOutput w j t) = some [w]) ∧
    (ValueDef.visitedOperands (.Alias w) = some [w]) ∧
    (ValueDef.visitedOperands (.Placeholder t) = some []) ∧
    (ValueDef.visitedOperands (.Trace n tr) = some tr) ∧
    (ValueDef.visitedOperands .None = none) := by
  refine ⟨rfl, ?_, rfl, rfl, rfl, ?_, rfl⟩ <;>
    simp [ValueDef.visitedOperands, ValueDef.visit_uses, foldl_snoc]

/-- C3: for every `ValueDef` and every rewriting callback, the sequence of
operand positions examined by `update_uses` is identical (in number and
order) to the sequence visited by `visit_uses`; in particular both panic
exactly on the `None` variant and both skip `BlockParam`/`Placeholder`. -/
theorem visit_update_uses_same_positions (d : ValueDef) (g : Value → Value) :
    Option.map Prod.snd (d.updatedOperands g) = d.visitedOperands := by
  cases d with
  | Operator op args tys =>
    simp [ValueDef.updatedOperands, ValueDef.visitedOperands,
      ValueDef.update_uses, ValueDef.visit_uses, foldl_snoc,
      foldl_track_snd g args [] []]
  | Trace n args =>
    simp [ValueDef.updatedOperands, ValueDef.visitedOperands,
      ValueDef.update_uses, ValueDef.visit_uses, foldl_snoc,
      foldl_track_snd g args [] []]
  | _ =>
    simp [ValueDef.updatedOperands, ValueDef.visitedOperands,
      ValueDef.update_uses, ValueDef.visit_uses]

/-- C9: `ty()` and `tys()` agree — `ty` returns `some t` iff `tys` is the
one-element list `[t]`, and `ty` returns `none` iff `tys` is empty or has
at least two elements. -/
theorem ty_tys_agreement (d : ValueDef) :
    (∀ t : Ty, d.ty = some t ↔ d.tys = [t]) ∧
    (d.ty = none ↔ (d.tys = [] ∨ 2 ≤ d.tys.length)) := by
  cases d with
  | Operator op args tys =>
    match tys with
    | [] => simp [ValueDef.ty, ValueDef.tys]
    | [t0] => simp [ValueDef.ty, ValueDef.tys]
    | t0 :: t1 :: rest => simp [ValueDef.ty, ValueDef.tys]
  | _ => simp [ValueDef.ty, ValueDef.tys]

section PrinterHelpers

theorem bind_const_none {α β : Type} (x : Option α) :
    (x.bind fun _ => (none : Option β)) = none := by
  cases x <;> rfl

theorem mapOpt_none_of_mem {α β : Type} (f : α → Option β) {l : List α}
    {x : α} (hx : x ∈ l) (hf : f x = none) : Disp.mapOpt f l = none := by
  induction l with
  | nil => cases hx
  | cons a rest ih =>
    rcases List.mem_cons.mp hx with h | h
    · subst h; simp [Disp.mapOpt, hf]
    · cases hfa : f a with
      | none => simp [Disp.mapOpt, hfa]
      | some y => simp [Disp.mapOpt, hfa, ih h]

theorem mapOpt_congr {α β : Type} (f g : α → Option β) (l : List α)
    (h : ∀ x ∈ l, f x = g x) : Disp.mapOpt f l = Disp.mapOpt g l := by
  induction l with
  | nil => rfl
  | cons a rest ih =>
    have ha := h a (List.mem_cons_self a rest)
    have hr := ih (fun x hx => h x (List.mem_cons_of_mem a hx))
    simp [Disp.mapOpt, ha, hr]

theorem enumFromN_mem {α : Type} {x : α} :
    ∀ (l : List α) (n : Nat), x ∈ l → ∃ i, (i, x) ∈ Disp.enumFromN n l := by
  intro l
  induction l with
  | nil => intro n h; cases h
  | cons a rest ih =>
    intro n h
    rcases List.mem_cons.mp h with h | h
    · subst h; exact ⟨n, by simp [Disp.enumFromN]⟩
    · obtain ⟨i, hi⟩ := ih (n + 1) h
      refine ⟨i, ?_⟩
      simp only [Disp.enumFromN]
      exact List.mem_cons_of_mem _ hi

theorem printInst_none_of_bad (body : Disp.FunctionBody)
    (m? : Option Disp.Module) (d? : Option Disp.PrintDecorator)
    (ind : String) (v : Value) (vd : Disp.ValueDef)
    (hget : body.values.get v.index = some vd)
    (hbad : Disp.isBadInstDef vd = true) :
    Disp.printInst body m? d? ind v = none := by
  cases hl : body.value_locals[v.index]? with
  | none => simp [Disp.printInst, hl]
  | some lc => cases vd <;> simp_all [Disp.printInst, Disp.isBadInstDef]

theorem printInsts_none_of_bad (body : Disp.FunctionBody)
    (m? : Option Disp.Module) (d? : Option Disp.PrintDecorator)
    (ind : String) (insts : List Value)
    (h : ∃ v ∈ insts, ∃ vd, body.values.get v.index = some vd ∧
      Disp.isBadInstDef vd = true) :
    Disp.printInsts body m? d? ind insts = none := by
  induction insts with
  | nil => obtain ⟨v, hv, _⟩ := h; cases hv
  | cons a rest ih =>
    obtain ⟨v, hv, vd, hget, hbad⟩ := h
    rcases List.mem_cons.mp hv with heq | hmem
    · subst heq
      simp [Disp.printInsts, printInst_none_of_bad body m? d? ind v vd hget hbad]
    · cases hpi : Disp.printInst body m? d? ind a with
      | none => simp [Disp.printInsts, hpi]
      | some s => simp [Disp.printInsts, hpi, ih ⟨v, hmem, vd, hget, hbad⟩]

theorem printBlock_none_of_bad (body : Disp.FunctionBody)
    (m? : Option Disp.Module) (d? : Option Disp.PrintDecorator)
    (ind : String) (bid : Block) (bd : Disp.BlockData)
    (h : ∃ v ∈ bd.insts, ∃ vd, body.values.get v.index = some vd ∧
      Disp.isBadInstDef vd = true) :
    Disp.printBlock body m? d? ind bid bd = none := by
  have hi := printInsts_none_of_bad body m? d? ind bd.insts h
  simp [Disp.printBlock, hi, bind_const_none]

theorem functionBodyFmt_none_of_bad (body : Disp.FunctionBody)
    (ind : String) (verbose : Bool) (m? : Option Disp.Module)
    (d? : Option Disp.PrintDecorator)
    (h : ∃ bd ∈ body.blocks.items, ∃ v ∈ bd.insts, ∃ vd,
      body.values.get v.index = some vd ∧ Disp.isBadInstDef vd = true) :
    Disp.functionBodyFmt body ind verbose m? d? = none := by
  obtain ⟨bd, hbd, hrest⟩ := h
  obtain ⟨i, hi⟩ := enumFromN_mem body.blocks.items 0 hbd
  have hmap : Disp.mapOpt
      (fun e => Disp.printBlock body m? d? ind ⟨e.1⟩ e.2)
      body.blocks.entries = none :=
    mapOpt_none_of_mem _ hi
      (printBlock_none_of_bad body m? d? ind ⟨i⟩ bd hrest)
  simp [Disp.functionBodyFmt, hmap, bind_const_none]

theorem printInst_isSome_of_ok (body : Disp.FunctionBody)
    (m? : Option Disp.Module) (d? : Option Disp.PrintDecorator)
    (ind : String) (v : Value) (hok : Disp.instOk body m? v = true) :
    (Disp.printInst body m? d? ind v).isSome = true := by
  unfold Disp.instOk at hok
  rw [Bool.and_eq_true] at hok
  obtain ⟨h1, h2⟩ := hok
  cases hl : body.value_locals[v.index]? with
  | none => rw [hl] at h1; simp at h1
  | some lc =>
    cases hv : body.values.get v.index with
    | none => rw [hv] at h2; simp [Disp.defOkOpt] at h2
    | some vd =>
      rw [hv] at h2
      simp only [Disp.defOkOpt] at h2
      cases vd with
      | Operator op aH tH =>
        simp only [Disp.defOk, Bool.and_eq_true] at h2
        obtain ⟨⟨ha, hb⟩, hc⟩ := h2
        obtain ⟨args, hag⟩ := Option.isSome_iff_exists.mp ha
        obtain ⟨tys, htg⟩ := Option.isSome_iff_exists.mp hb
        obtain ⟨loc, hlg⟩ := Option.isSome_iff_exists.mp hc
        simp [Disp.printInst, Disp.instOperatorLine, hl, hv, hag, htg, hlg]
      | PickOutput w i t => simp [Disp.printInst, hl, hv]
      | Alias w => simp [Disp.printInst, hl, hv]
      | BlockParam b i t => simp [Disp.defOk] at h2
      | Placeholder t => simp [Disp.defOk] at h2
      | Trace n aH => simp [Disp.defOk] at h2
      | None => simp [Disp.defOk] at h2

theorem printInsts_isSome_of_ok (body : Disp.FunctionBody)
    (m? : Option Disp.Module) (d? : Option Disp.PrintDecorator)
    (ind : String) (insts : List Value)
    (h : ∀ v ∈ insts, Disp.instOk body m? v = true) :
    (Disp.printInsts body m? d? ind insts).isSome = true := by
  induction insts with
  | nil => simp [Disp.printInsts]
  | cons a rest ih =>
    have ha := printInst_isSome_of_ok body m? d? ind a
      (h a (List.mem_cons_self a rest))
    cases hpi : Disp.printInst body m? d? ind a with
    | none => rw [hpi] at ha; simp at ha
    | some s =>
      have hr := ih (fun v hv => h v (List.mem_cons_of_mem a hv))
      cases hpr : Disp.printInsts body m? d? ind rest with
      | none => rw [hpr] at hr; simp at hr
      | some r => simp [Disp.printInsts, hpi, hpr]

theorem preLine_eq_spec (verbose : Bool) (body : Disp.FunctionBody)
    (ind : String) (idx : Nat) (vd : Disp.ValueDef) :
    Disp.preLine verbose body ind idx vd
      = (if Disp.specEmits verbose vd then
          (Disp.specLineText body ind idx vd).map (fun l => [l])
        else some []) := by
  cases vd with
  | Operator op aH tH =>
    cases verbose with
    | false => simp [Disp.preLine, Disp.specEmits]
    | true =>
      cases hag : body.arg_pool.get aH with
      | none => simp [Disp.preLine, Disp.specEmits, Disp.specLineText, hag]
      | some args =>
        cases htg : body.type_pool.get tH with
        | none =>
          simp [Disp.preLine, Disp.specEmits, Disp.specLineText, hag, htg]
        | some tys =>
          simp [Disp.preLine, Disp.specEmits, Disp.specLineText, hag, htg]
  | _ =>
    cases verbose <;>
      simp [Disp.preLine, Disp.specEmits, Disp.specLineText]

end PrinterHelpers

/-- C5 (counterexample): the claim that the verbose pre-pass emits one
`#`-typed line for every value definition and that the non-verbose
pre-pass emits none fails on a values pool `[Placeholder i32, Trace, None]`:
with verbose off the pre-pass still emits lines (for the `Placeholder` and
`None` definitions); with verbose on it emits only two lines for three
values (the `Trace` definition is skipped); and the `None` line carries no
`#`-commented type. -/
theorem prePass_claim_counterexample :
    (Disp.prePassLines false Disp.cex5Body "" ≠ some []) ∧
    ((Disp.prePassLines true Disp.cex5Body "").map List.length
      ≠ some Disp.cex5Body.values.items.length) ∧
    (∃ ls, Disp.prePassLines true Disp.cex5Body "" = some ls ∧
      ∃ l ∈ ls, ('#' ∈ l.data) = False) := by
  refine ⟨by decide, by decide,
    ⟨["    v0 = placeholder # i32\n", "    v2 = none\n"], by decide,
      "    v2 = none\n", by decide, by decide⟩⟩

/-- C5 (amended): the pre-pass emits, per value in pool order, exactly the
lines described variant-by-variant by `specEmits`/`specLineText`: one line
for `PickOutput`/`Placeholder`/`None` in both modes, one line for
`Operator`/`BlockParam`/`Alias` only in verbose mode, no line for `Trace`;
`Operator`, `BlockParam`, `PickOutput` and `Placeholder` lines carry a
`#`-commented type while `Alias` and `None` lines do not. -/
theorem prePass_variant_characterization (verbose : Bool)
    (body : Disp.FunctionBody) (ind : String) :
    Disp.prePassLines verbose body ind = Disp.prePassSpec verbose body ind := by
  unfold Disp.prePassLines Disp.prePassSpec
  rw [mapOpt_congr _ _ _
    (fun e _ => preLine_eq_spec verbose body ind e.1 e.2)]

/-- C6 (code bug): `ModuleDisplay::fmt` never reads the per-function
decorator map it is constructed with — printing a module whose only
function is mapped to a decorator that writes a marker at every hook
produces exactly the output of printing with no decorators at all (and
that print succeeds, so the equality is not vacuous). -/
theorem module_display_ignores_decorators :
    Disp.moduleFmt Disp.sampleModule (some [(⟨0⟩, Disp.loudDecorator)])
      = Disp.moduleFmt Disp.sampleModule none ∧
    (Disp.moduleFmt Disp.sampleModule none).isSome = true :=
  ⟨rfl, by decide⟩

/-- C7: an `Operator` instruction prints as
`<value> = <op> <args> # <tys> <loc> `, and the `<loc>` part is
`@<SourceLoc> <file>:<line>:<col>` exactly when the instruction's source
location is not the invalid sentinel and a module reference was supplied,
and empty otherwise. -/
theorem inst_line_loc_format
    (body : Disp.FunctionBody) (m? : Option Disp.Module) (ind : String)
    (inst : Value) (op : Operator) (aH tH : Nat)
    (args : List Value) (tys : List Ty) (l : String)
    (hargs : body.arg_pool.get aH = some args)
    (htys : body.type_pool.get tH = some tys)
    (hloc : Disp.locText body m? inst = some l) :
    (Disp.instOperatorLine body m? ind inst op aH tH
      = some (ind ++ "    " ++ Disp.Value.str inst ++ " = " ++ op.text ++ " "
        ++ String.intercalate ", " (args.map Disp.Value.str) ++ " # "
        ++ String.intercalate ", " (tys.map Disp.Ty.str) ++ " " ++ l ++ " ")) ∧
    (∀ m sl data fname, m? = some m →
      body.source_locs[inst.index]? = some sl →
      sl ≠ SourceLoc.invalid →
      m.debug.source_locs.get sl.index = some data →
      m.debug.source_files.get data.file.index = some fname →
      l = "@" ++ Disp.SourceLoc.str sl ++ " " ++ fname ++ ":"
        ++ Nat.repr data.line ++ ":" ++ Nat.repr data.col) ∧
    (m? = none → l = "") ∧
    (∀ sl, body.source_locs[inst.index]? = some sl →
      sl = SourceLoc.invalid → l = "") := by
  refine ⟨?_, ?_, ?_, ?_⟩
  · simp [Disp.instOperatorLine, hargs, htys, hloc]
  · intro m sl data fname hm hsl hne hd hf
    rw [hm] at hloc
    unfold Disp.locText at hloc
    rw [hsl] at hloc
    simp [hne, hd, hf] at hloc
    exact hloc.symm
  · intro hm
    rw [hm] at hloc
    unfold Disp.locText at hloc
    cases hsl : body.source_locs[inst.index]? with
    | none => rw [hsl] at hloc; cases hloc
    | some sl => rw [hsl] at hloc; simp at hloc; exact hloc.symm
  · intro sl hsl hinv
    unfold Disp.locText at hloc
    rw [hsl] at hloc
    cases m? with
    | none => simp at hloc; exact hloc.symm
    | some m => simp [hinv] at hloc; exact hloc.symm

/-- C7 (witness): the format theorem instantiated on `sampleBody` at its
operator instruction `v0`, which has a valid source location and a module
reference. -/
theorem inst_line_loc_format_witness :
    Disp.instOperatorLine Disp.sampleBody (some Disp.sampleModule) "" ⟨0⟩
      Disp.opAdd 0 0 = some "    v0 = i32.add  # i32 @loc0 a.wat:1:2 " :=
  (inst_line_loc_format Disp.sampleBody (some Disp.sampleModule) "" ⟨0⟩
    Disp.opAdd 0 0 [] [Ty.i32] "@loc0 a.wat:1:2"
    (by decide) (by decide) (by decide)).1

/-- C8: the module printer is deterministic — its output is a pure
function of the module state and the decorator set. The embedding is a
pure function, so the only Rust-level source of nondeterminism is the hash
map holding the decorator set; the output is invariant under any reordering
of that map's entries (pools are iterated in insertion order by
construction). -/
theorem module_print_deterministic (m : Disp.Module)
    (ds ds' : List (Func × Disp.PrintDecorator)) (h : List.Perm ds ds') :
    Disp.moduleFmt m (some ds) = Disp.moduleFmt m (some ds') := rfl

/-- C8 (witness): two decorator maps holding the same entries in swapped
order print `sampleModule` identically. -/
theorem module_print_deterministic_witness :
    Disp.moduleFmt Disp.sampleModule
        (some [(⟨0⟩, Disp.loudDecorator), (⟨0⟩, Disp.NOPPrintDecorator)])
      = Disp.moduleFmt Disp.sampleModule
        (some [(⟨0⟩, Disp.NOPPrintDecorator), (⟨0⟩, Disp.loudDecorator)]) :=
  module_print_deterministic Disp.sampleModule
    [(⟨0⟩, Disp.loudDecorator), (⟨0⟩, Disp.NOPPrintDecorator)]
    [(⟨0⟩, Disp.NOPPrintDecorator), (⟨0⟩, Disp.loudDecorator)]
    (List.Perm.swap ((⟨0⟩ : Func), Disp.NOPPrintDecorator)
      ((⟨0⟩ : Func), Disp.loudDecorator) [])

/-- C10: printing a function body panics whenever some block's instruction
list holds a value defined as `BlockParam`, `Placeholder`, `Trace` or
`None`; conversely, if every listed instruction's definition is an
`Operator`, `PickOutput` or `Alias` and all its lookups are in range, the
instruction-printing loop completes without panicking. -/
theorem body_print_panic_characterization :
    (∀ (body : Disp.FunctionBody) (ind : String) (verbose : Bool)
        (m? : Option Disp.Module) (d? : Option Disp.PrintDecorator),
      (∃ bd ∈ body.blocks.items, ∃ v ∈ bd.insts, ∃ vd,
        body.values.get v.index = some vd ∧ Disp.isBadInstDef vd = true) →
      Disp.functionBodyFmt body ind verbose m? d? = none) ∧
    (∀ (body : Disp.FunctionBody) (m? : Option Disp.Module)
        (d? : Option Disp.PrintDecorator) (ind : String)
        (insts : List Value),
      (∀ v ∈ insts, Disp.instOk body m? v = true) →
      (Disp.printInsts body m? d? ind insts).isSome = true) :=
  ⟨fun body ind verbose m? d? h =>
      functionBodyFmt_none_of_bad body ind verbose m? d? h,
   fun body m? d? ind insts h =>
      printInsts_isSome_of_ok body m? d? ind insts h⟩

/-- C10 (witness): `badBody` (whose block lists a `None`-defined value)
panics, while the three well-formed instructions of `sampleBody` print
without panicking. -/
theorem body_print_panic_characterization_witness :
    Disp.functionBodyFmt Disp.badBody "" false none none = none ∧
    (Disp.printInsts Disp.sampleBody (some Disp.sampleModule) none ""
      [⟨0⟩, ⟨1⟩, ⟨2⟩]).isSome = true :=
  ⟨body_print_panic_characterization.1 Disp.badBody "" false none none
      ⟨⟨[], [⟨0⟩], "ret", [], [], "bad"⟩, by decide, ⟨0⟩, by decide,
        .None, by decide, by decide⟩,
   body_print_panic_characterization.2 Disp.sampleBody
      (some Disp.sampleModule) none "" [⟨0⟩, ⟨1⟩, ⟨2⟩] (by decide)⟩
